import Mathlib

/-!
Shallow embedding of the tunnel-barrier fitting pipeline of
`src/qtt/deprecated/tunnelbarrier.py` and of the Keysight M3202A AWG driver
stub of `src/qtt/instrument_drivers/virtual_awg/awgs/KeysightM3202A.py`.

Numpy 1-D floating point arrays are modelled as `List ℝ` and floating point
arithmetic as exact real arithmetic.  The scipy optimization routines
(`curve_fit`, `brute`, `minimize(method='Powell')`) are external library code;
they are modelled as an abstract bundle of functions (`ScipyStub`), so that
theorems about the driver `fitBarrierModel` hold for every behaviour of the
underlying optimizer, and concrete instantiations of the bundle can be
evaluated.
-/

/-- `scipy.constants.e`, the elementary charge, exact SI value. -/
noncomputable def elementaryCharge : ℝ := 1.602176634e-19

/-- `scipy.constants.h`, the Planck constant, exact SI value. -/
noncomputable def planckConstant : ℝ := 6.62607015e-34

/-- `ueV2Hz = scipy.constants.e / scipy.constants.h * 1e-6`
(tunnelbarrier.py, line 65). -/
noncomputable def ueV2Hz : ℝ := elementaryCharge / planckConstant * 1e-6

/-- `barrierModel(x, p)` (tunnelbarrier.py, lines 68-96):
`y = np.sqrt(np.power((x - xoffset) * leverarm, 2) + 4 * t**2) * ueV2Hz`
with `xoffset = p[0]`, `leverarm = p[1]`, `t = p[2]`.  The varargs
normalisation `if len(p) == 1: p = p[0]` means every call site passes the
3-element parameter vector, modelled here directly as a list. -/
noncomputable def barrierModel (x : List ℝ) (p : List ℝ) : List ℝ :=
  let xoffset := p.getD 0 0
  let leverarm := p.getD 1 0
  let t := p.getD 2 0
  x.map (fun xi => Real.sqrt (((xi - xoffset) * leverarm) ^ 2 + 4 * t ^ 2) * ueV2Hz)

/-- Modelled from the spec: `robustCost(x, thr, 'BZ0')` is imported from
`qtt.pgeometry`, which is not among the supplied sources.  The spec describes
it as a robust loss transform "that down-weights residuals beyond the
threshold (a redescending M-estimator family, ... the source uses a specific
variant identified as 'BZ0')" and leaves the exact formula open ("a port must
choose or reimplement a concrete redescending M-estimator").  We model the
'BZ0' variant as the truncated quadratic, the canonical redescending
M-estimator: quadratic below the threshold, capped at `thr ^ 2` above it, and
zero at zero residual. -/
noncomputable def robustCostBZ0 (x thr : ℝ) : ℝ := min (x ^ 2) (thr ^ 2)

/-- `np.linalg.norm(sc, ord=4)`: the L4 norm `(Σ |v|^4) ^ (1/4)`. -/
noncomputable def norm4 (l : List ℝ) : ℝ :=
  ((l.map (fun v => |v| ^ 4)).sum) ^ ((1 : ℝ) / 4)

/-- `barrierScore(xd, yd, pp, weights=None, thr=3e9)`
(tunnelbarrier.py, lines 129-142):
```
ppq = pp.copy()
ydatax = barrierModel(xd, ppq)
sc = np.abs(ydatax - yd)
scalefac = thr
sc = np.sqrt(robustCost(sc / scalefac, thr / scalefac, 'BZ0')) * scalefac
if weights is not None:
    sc = sc * weights
sc = np.linalg.norm(sc, ord=4) / sc.size
```
`ppq` is a copy with the same contents as `pp`, so the value computed is a
pure function of the contents of the arguments. -/
noncomputable def barrierScore (xd yd pp : List ℝ) (weights : Option (List ℝ))
    (thr : ℝ) : ℝ :=
  let ydatax := barrierModel xd pp
  let sc0 := List.zipWith (fun a b => |a - b|) ydatax yd
  let scalefac := thr
  let sc1 := sc0.map (fun v =>
    Real.sqrt (robustCostBZ0 (v / scalefac) (thr / scalefac)) * scalefac)
  let sc2 := match weights with
    | none => sc1
    | some w => List.zipWith (· * ·) sc1 w
  norm4 sc2 / (sc2.length : ℝ)

/-- Default value of the `thr` argument of `barrierScore`. -/
noncomputable def defaultThr : ℝ := 3e9

/-- Claim C1: `barrierModel` returns, elementwise,
`sqrt(((x - x0) * leverarm)^2 + 4*t^2) * ueV2Hz`, where `ueV2Hz` is the exact
constant `e/h * 1e-6` built from the standard physical constants, and in
particular for `x = [1,2,3]` and parameters `(0, 40, 400)` it returns
`sqrt((x*40)^2 + 4*400^2) * ueV2Hz` elementwise. -/
theorem barrierModel_formula :
    (∀ (xs : List ℝ) (x0 leverarm t : ℝ),
        barrierModel xs [x0, leverarm, t] =
          xs.map (fun x =>
            Real.sqrt (((x - x0) * leverarm) ^ 2 + 4 * t ^ 2) * ueV2Hz)) ∧
    ueV2Hz = 1.602176634e-19 / 6.62607015e-34 * 1e-6 ∧
    barrierModel [1, 2, 3] [0, 40, 400] =
      [Real.sqrt ((1 * 40) ^ 2 + 4 * 400 ^ 2) * ueV2Hz,
       Real.sqrt ((2 * 40) ^ 2 + 4 * 400 ^ 2) * ueV2Hz,
       Real.sqrt ((3 * 40) ^ 2 + 4 * 400 ^ 2) * ueV2Hz] := by
  refine ⟨fun xs x0 leverarm t => rfl, rfl, ?_⟩
  norm_num [barrierModel]

/-! ### List and `norm4` helper lemmas -/

lemma zipWith_mul_map_comm (f : ℝ → ℝ) (c : ℝ) :
    ∀ (l w : List ℝ),
      List.zipWith (· * ·) (l.map (fun v => f v * c)) w =
        List.zipWith (fun wi ri => wi * c * f ri) w l := by
  intro l
  induction l with
  | nil => intro w; cases w <;> simp
  | cons a l ih =>
    intro w
    cases w with
    | nil => simp
    | cons b w =>
      simp only [List.map_cons, List.zipWith_cons_cons, ih, List.cons.injEq]
      exact ⟨by ring, trivial⟩

lemma map_mul_one_comm (f : ℝ → ℝ) (c : ℝ) (l : List ℝ) :
    l.map (fun v => f v * c) = l.map (fun v => 1 * c * f v) := by
  induction l with
  | nil => rfl
  | cons a l ih =>
    simp only [List.map_cons, ih, List.cons.injEq]
    exact ⟨by ring, trivial⟩

lemma zipWith_map_mul_right (c : ℝ) :
    ∀ (l w : List ℝ),
      List.zipWith (· * ·) l (w.map (fun v => c * v)) =
        (List.zipWith (· * ·) l w).map (fun v => c * v) := by
  intro l
  induction l with
  | nil => intro w; cases w <;> simp
  | cons a l ih =>
    intro w
    cases w with
    | nil => simp
    | cons b w =>
      simp only [List.map_cons, List.zipWith_cons_cons, ih, List.cons.injEq]
      exact ⟨by ring, trivial⟩

lemma sum_map_pow4_nonneg (l : List ℝ) : 0 ≤ (l.map (fun v => |v| ^ 4)).sum := by
  apply List.sum_nonneg
  intro x hx
  obtain ⟨v, _, rfl⟩ := List.mem_map.mp hx
  positivity

lemma norm4_nonneg (l : List ℝ) : 0 ≤ norm4 l :=
  Real.rpow_nonneg (sum_map_pow4_nonneg l) _

lemma norm4_eq_zero_of_forall (l : List ℝ) (h : ∀ v ∈ l, v = 0) :
    norm4 l = 0 := by
  unfold norm4
  have hs : (l.map (fun v => |v| ^ 4)).sum = 0 := by
    apply List.sum_eq_zero
    intro x hx
    obtain ⟨v, hv, rfl⟩ := List.mem_map.mp hx
    rw [h v hv]
    norm_num
  rw [hs]
  exact Real.zero_rpow (by norm_num)

lemma norm4_map_mul (c : ℝ) (l : List ℝ) :
    norm4 (l.map (fun v => c * v)) = |c| * norm4 l := by
  unfold norm4
  rw [List.map_map]
  have h1 : ((fun v => |v| ^ 4) ∘ fun v => c * v) = fun v => |c| ^ 4 * |v| ^ 4 := by
    funext v
    simp [Function.comp, abs_mul, mul_pow]
  rw [h1]
  have h2 : (l.map (fun v => |c| ^ 4 * |v| ^ 4)).sum
      = |c| ^ 4 * (l.map (fun v => |v| ^ 4)).sum := by
    induction l with
    | nil => simp
    | cons a l ih => simp [ih]; ring
  rw [h2, Real.mul_rpow (by positivity) (sum_map_pow4_nonneg l)]
  congr 1
  rw [one_div, ← Real.rpow_natCast |c| 4,
    ← Real.rpow_mul (abs_nonneg c)]
  norm_num

lemma forall_mem_zipWith_abs_sub_self (l : List ℝ) :
    ∀ v ∈ List.zipWith (fun a b => |a - b|) l l, v = 0 := by
  induction l with
  | nil => simp
  | cons a l ih =>
    intro v hv
    simp only [List.zipWith_cons_cons, List.mem_cons] at hv
    rcases hv with h | h
    · rw [h]; simp
    · exact ih v h

lemma forall_mem_zipWith_mul_zero (l w : List ℝ) (hl : ∀ u ∈ l, u = 0) :
    ∀ v ∈ List.zipWith (· * ·) l w, v = 0 := by
  induction l generalizing w with
  | nil => simp
  | cons a l ih =>
    cases w with
    | nil => simp
    | cons b w =>
      intro v hv
      simp only [List.zipWith_cons_cons, List.mem_cons] at hv
      rcases hv with h | h
      · rw [h, hl a (by simp), zero_mul]
      · exact ih w (fun u hu => hl u (List.mem_cons_of_mem a hu)) v h

lemma barrierModel_length (xd pp : List ℝ) :
    (barrierModel xd pp).length = xd.length := by
  unfold barrierModel
  simp

lemma barrierScore_some (xd yd pp w : List ℝ) (thr : ℝ) :
    barrierScore xd yd pp (some w) thr =
      norm4 (List.zipWith (· * ·)
          ((List.zipWith (fun a b => |a - b|) (barrierModel xd pp) yd).map
            (fun v => Real.sqrt (robustCostBZ0 (v / thr) (thr / thr)) * thr)) w) /
        ((List.zipWith (· * ·)
          ((List.zipWith (fun a b => |a - b|) (barrierModel xd pp) yd).map
            (fun v => Real.sqrt (robustCostBZ0 (v / thr) (thr / thr)) * thr)) w).length : ℝ) :=
  rfl

lemma barrierScore_none (xd yd pp : List ℝ) (thr : ℝ) :
    barrierScore xd yd pp none thr =
      norm4 ((List.zipWith (fun a b => |a - b|) (barrierModel xd pp) yd).map
          (fun v => Real.sqrt (robustCostBZ0 (v / thr) (thr / thr)) * thr)) /
        (((List.zipWith (fun a b => |a - b|) (barrierModel xd pp) yd).map
          (fun v => Real.sqrt (robustCostBZ0 (v / thr) (thr / thr)) * thr)).length : ℝ) :=
  rfl

lemma zipWith_sqrt_form (thr : ℝ) (l w : List ℝ) :
    List.zipWith (· * ·)
        (l.map (fun v => Real.sqrt (robustCostBZ0 (v / thr) 1) * thr)) w =
      List.zipWith (fun wi ri => wi * thr * Real.sqrt (robustCostBZ0 (ri / thr) 1)) w l :=
  zipWith_mul_map_comm (fun v => Real.sqrt (robustCostBZ0 (v / thr) 1)) thr l w

lemma map_sqrt_form (thr : ℝ) (l : List ℝ) :
    l.map (fun v => Real.sqrt (robustCostBZ0 (v / thr) 1) * thr) =
      l.map (fun ri => 1 * thr * Real.sqrt (robustCostBZ0 (ri / thr) 1)) :=
  map_mul_one_comm (fun v => Real.sqrt (robustCostBZ0 (v / thr) 1)) thr l

/-- Claim C2: `barrierScore(xd, yd, pp, w, thr)` equals the L4 norm of `s`
divided by the number of samples `n`, where
`s_i = w_i * thr * sqrt(robustCost(|barrierModel(xd, pp)_i - yd_i| / thr, 1, 'BZ0'))`
(with `w_i = 1` when no weights are supplied): residuals are divided by the
threshold before the robust 'BZ0' transform, the transform's `thr` argument
becomes exactly 1, the square root is taken, and the result is multiplied back
by the threshold before the weighting and the L4-norm-over-count reduction. -/
theorem barrierScore_formula (xd yd w : List ℝ) (x0 leverarm t thr : ℝ)
    (hy : yd.length = xd.length) (hw : w.length = xd.length) (hthr : thr ≠ 0) :
    barrierScore xd yd [x0, leverarm, t] (some w) thr =
      norm4 (List.zipWith
          (fun wi ri => wi * thr * Real.sqrt (robustCostBZ0 (ri / thr) 1))
          w (List.zipWith (fun a b => |a - b|)
              (barrierModel xd [x0, leverarm, t]) yd)) /
        (xd.length : ℝ) ∧
    barrierScore xd yd [x0, leverarm, t] none thr =
      norm4 ((List.zipWith (fun a b => |a - b|)
            (barrierModel xd [x0, leverarm, t]) yd).map
          (fun ri => 1 * thr * Real.sqrt (robustCostBZ0 (ri / thr) 1))) /
        (xd.length : ℝ) := by
  constructor
  · rw [barrierScore_some, div_self hthr, zipWith_sqrt_form]
    congr 1
    simp [List.length_zipWith, List.length_map, barrierModel_length, hy, hw]
  · rw [barrierScore_none, div_self hthr, map_sqrt_form]
    congr 1
    simp [List.length_zipWith, List.length_map, barrierModel_length, hy]

/-- Witness for C2 at `xd = [0]`, `yd = [0]`, `w = [1]`, parameters
`(0, 0, 0)`, `thr = 1`. -/
theorem barrierScore_formula_witness :
    barrierScore [0] [0] [(0 : ℝ), 0, 0] (some [1]) 1 =
      norm4 (List.zipWith
          (fun wi ri => wi * 1 * Real.sqrt (robustCostBZ0 (ri / 1) 1))
          [1] (List.zipWith (fun a b => |a - b|)
              (barrierModel [0] [(0 : ℝ), 0, 0]) [0])) /
        (([(0 : ℝ)].length : ℝ)) ∧
    barrierScore [0] [0] [(0 : ℝ), 0, 0] none 1 =
      norm4 ((List.zipWith (fun a b => |a - b|)
            (barrierModel [0] [(0 : ℝ), 0, 0]) [0]).map
          (fun ri => 1 * 1 * Real.sqrt (robustCostBZ0 (ri / 1) 1))) /
        (([(0 : ℝ)].length : ℝ)) :=
  barrierScore_formula [0] [0] [1] 0 0 0 1 (by simp) (by simp) (by norm_num)

/-- Claim C5: `barrierScore` returns a non-negative scalar for all inputs, and
when the model predictions exactly equal the observations it returns exactly 0
(proved for every threshold, which covers the claim's "threshold is large"
case). -/
theorem barrierScore_nonneg_zero :
    (∀ (xd yd pp : List ℝ) (w : Option (List ℝ)) (thr : ℝ),
        0 ≤ barrierScore xd yd pp w thr) ∧
    (∀ (xd yd pp : List ℝ) (w : Option (List ℝ)) (thr : ℝ),
        barrierModel xd pp = yd → barrierScore xd yd pp w thr = 0) := by
  constructor
  · intro xd yd pp w thr
    cases w with
    | none =>
      rw [barrierScore_none]
      exact div_nonneg (norm4_nonneg _) (Nat.cast_nonneg _)
    | some ws =>
      rw [barrierScore_some]
      exact div_nonneg (norm4_nonneg _) (Nat.cast_nonneg _)
  · intro xd yd pp w thr h
    have hrc : robustCostBZ0 (0 / thr) (thr / thr) = 0 := by
      unfold robustCostBZ0
      rw [zero_div]
      have h0 : (0 : ℝ) ^ 2 = 0 := by norm_num
      rw [h0]
      exact min_eq_left (sq_nonneg (thr / thr))
    have hsc0 : ∀ v ∈ List.zipWith (fun a b => |a - b|) (barrierModel xd pp) yd,
        v = 0 := by
      rw [← h]
      exact forall_mem_zipWith_abs_sub_self _
    have hsc1 : ∀ v ∈ (List.zipWith (fun a b => |a - b|) (barrierModel xd pp) yd).map
        (fun v => Real.sqrt (robustCostBZ0 (v / thr) (thr / thr)) * thr), v = 0 := by
      intro v hv
      obtain ⟨u, hu, rfl⟩ := List.mem_map.mp hv
      rw [hsc0 u hu, hrc, Real.sqrt_zero, zero_mul]
    cases w with
    | none =>
      rw [barrierScore_none, norm4_eq_zero_of_forall _ hsc1, zero_div]
    | some ws =>
      rw [barrierScore_some,
        norm4_eq_zero_of_forall _ (forall_mem_zipWith_mul_zero _ ws hsc1), zero_div]

/-- Witness for C5 at `xd = [0]`, `yd = [0]`, parameters `(0, 0, 0)`. -/
theorem barrierScore_nonneg_zero_witness :
    0 ≤ barrierScore [0] [0] [(0 : ℝ), 0, 0] none 1 ∧
    barrierScore [0] [0] [(0 : ℝ), 0, 0] none 1 = 0 := by
  refine ⟨barrierScore_nonneg_zero.1 [0] [0] [0, 0, 0] none 1,
    barrierScore_nonneg_zero.2 [0] [0] [0, 0, 0] none 1 ?_⟩
  norm_num [barrierModel, Real.sqrt_zero]

/-! ### The optimizer driver `fitBarrierModel` -/

/-- One line of diagnostic output produced during `fitBarrierModel`. -/
inductive LogLine where
  /-- `print('fitBarrierModel: %s: %.4f -> %.4f' % (...))` after a grid
  search stage, carrying the data that is formatted: the current parameter
  vector `ppx` and the scores `sc0 / 1e6` and `sc / 1e6`. -/
  | gridReport (ppx : List ℝ) (sc0 sc : ℝ) : LogLine
  /-- `print('fitBarrierModel: %.4f -> %.4f' % (sc0 / 1e6, sc / 1e6))` at the
  end of the pipeline. -/
  | finalReport (sc0 sc : ℝ) : LogLine
  /-- A line printed by the underlying scipy minimizer itself (for example the
  convergence report emitted by `minimize(..., options={'disp': True})`). -/
  | minimizerLine (line : String) : LogLine

/-- Abstract model of the scipy optimization routines used by
`fitBarrierModel`.  `curveFit f xd yd p0` models
`scipy.optimize.curve_fit(f, xd, yd, p0)[0]`; `brute f r ns disp` models
`scipy.optimize.brute(f, ranges=[r], Ns=ns, disp=disp)`; `minimizePowell f p0
disp` models `scipy.optimize.minimize(f, p0, method='Powell',
options={'disp': disp})`, returning the solution array `r['x']` together with
whatever output the minimizer itself prints. -/
structure ScipyStub where
  curveFit : (List ℝ → List ℝ → List ℝ) → List ℝ → List ℝ → List ℝ → List ℝ
  brute : (ℝ → ℝ) → ℝ × ℝ → ℕ → Bool → ℝ
  minimizePowell : (List ℝ → ℝ) → List ℝ → Bool → List ℝ × List LogLine

/-- `fitBarrierModel(pp0, xd, yd, weights=None, verbose=1, curvefit=False, dd=None)`
(tunnelbarrier.py, lines 200-257), with the parameter vector result paired
with the diagnostic output produced.  The `dd` argument only receives writes
and does not influence the returned vector; it is treated in the store-level
embedding `fitBarrierModelST` below.  `xd.flatten()` on a 1-D array is the
array itself.  Mirrors the source statement by statement; the two `if 1:`
blocks are unconditional, the `if 0:` block is dead code and is omitted. -/
noncomputable def fitBarrierModelRun (S : ScipyStub) (pp0 xd yd : List ℝ)
    (weights : Option (List ℝ)) (verbose : ℤ) (curvefit : Bool) :
    List ℝ × List LogLine :=
  -- pp = curve_fit(barrierModel, xd.flatten(), yd.flatten(), pp0)[0]  if curvefit
  -- pp = pp0.copy()                                                   otherwise
  let pp := if curvefit then S.curveFit barrierModel xd yd pp0 else pp0
  -- ppx = pp.copy()
  let ppx0 := pp
  -- ff = lambda x: barrierScore(xd, yd, [pp[0], pp[1], x], weights=weights)
  -- r = scipy.optimize.brute(ff, ranges=[(0, 100)], Ns=20, disp=False)
  let r1 := S.brute
    (fun x => barrierScore xd yd [pp.getD 0 0, pp.getD 1 0, x] weights defaultThr)
    (0, 100) 20 false
  -- ppx[2] = r
  let ppx1 := ppx0.set 2 r1
  let sc0a := barrierScore xd yd pp weights defaultThr
  let sca := barrierScore xd yd ppx1 weights defaultThr
  let out1 := if verbose ≥ 2 then [LogLine.gridReport ppx1 sc0a sca] else []
  -- ff = lambda x: barrierScore(xd, yd, [x, pp[1], ppx[2]], weights=weights)
  -- r = scipy.optimize.brute(ff, ranges=[(pp[0] - 2, pp[0] + 2)], Ns=20, disp=False)
  let r2 := S.brute
    (fun x => barrierScore xd yd [x, pp.getD 1 0, ppx1.getD 2 0] weights defaultThr)
    (pp.getD 0 0 - 2, pp.getD 0 0 + 2) 20 false
  -- ppx[0] = r
  let ppx2 := ppx1.set 0 r2
  let sc0b := barrierScore xd yd pp weights defaultThr
  let scb := barrierScore xd yd ppx2 weights defaultThr
  let out2 := if verbose ≥ 2 then [LogLine.gridReport ppx2 sc0b scb] else []
  -- ff = lambda x: barrierScore(xd, yd, x, weights=weights)
  -- r = scipy.optimize.minimize(ff, ppx, method='Powell', options=dict({'disp': True}))
  -- ppx = r['x']
  let ffp := fun q => barrierScore xd yd q weights defaultThr
  let P1 := S.minimizePowell ffp ppx2 true
  let ppx3 := P1.1
  -- second Powell pass, identical, starting from the first pass's result
  let P2 := S.minimizePowell ffp ppx3 true
  let ppx4 := P2.1
  let sc0 := barrierScore xd yd pp weights defaultThr
  let sc := barrierScore xd yd ppx4 weights defaultThr
  -- if verbose: print('fitBarrierModel: %.4f -> %.4f' % (sc0 / 1e6, sc / 1e6))
  let outF := if verbose ≠ 0 then [LogLine.finalReport sc0 sc] else []
  (ppx4, out1 ++ out2 ++ P1.2 ++ P2.2 ++ outF)

/-- The parameter vector returned by `fitBarrierModel`. -/
noncomputable def fitBarrierModel (S : ScipyStub) (pp0 xd yd : List ℝ)
    (weights : Option (List ℝ)) (verbose : ℤ) (curvefit : Bool) : List ℝ :=
  (fitBarrierModelRun S pp0 xd yd weights verbose curvefit).1

/-- Claim C3: `fitBarrierModel` executes exactly these stages in this order,
each operating on the best vector so far, and returns the final vector:
(a) when `curvefit` is enabled, a curve-fit of `barrierModel` seeded with
`pp0`, otherwise `pp0` unchanged; (b) a brute grid search over the tunnel
coupling alone on the range `[0, 100]` with `Ns = 20`, holding the offset and
lever arm fixed; (c) a brute grid search over the offset alone; (d) two
successive Powell minimizations over all three parameters jointly, the second
starting from the first pass's result, whose output is the returned vector.
The hypothesis on `S.curveFit` records that `scipy.optimize.curve_fit`
returns a parameter vector of the same length as its seed. -/
theorem fitBarrierModel_stages (S : ScipyStub) (pp0 xd yd : List ℝ)
    (weights : Option (List ℝ)) (verbose : ℤ) (curvefit : Bool)
    (hlen : pp0.length = 3)
    (hS : ∀ f a b p, (S.curveFit f a b p).length = p.length) :
    fitBarrierModel S pp0 xd yd weights verbose curvefit =
      (let pp := if curvefit then S.curveFit barrierModel xd yd pp0 else pp0
       let t1 := S.brute
         (fun x => barrierScore xd yd [pp.getD 0 0, pp.getD 1 0, x] weights defaultThr)
         (0, 100) 20 false
       let x1 := S.brute
         (fun x => barrierScore xd yd [x, pp.getD 1 0, t1] weights defaultThr)
         (pp.getD 0 0 - 2, pp.getD 0 0 + 2) 20 false
       let q1 := (S.minimizePowell
         (fun q => barrierScore xd yd q weights defaultThr)
         [x1, pp.getD 1 0, t1] true).1
       (S.minimizePowell
         (fun q => barrierScore xd yd q weights defaultThr) q1 true).1) := by
  have hpp : (if curvefit then S.curveFit barrierModel xd yd pp0 else pp0).length = 3 := by
    cases curvefit <;> simp [hS, hlen]
  obtain ⟨a, b, c, habc⟩ := List.length_eq_three.mp hpp
  unfold fitBarrierModel fitBarrierModelRun
  rw [habc]
  rfl

/-- A concrete optimizer bundle: the curve fit returns its seed, the grid
search returns the lower end of its range, Powell returns its start and
prints nothing. -/
noncomputable def idStub : ScipyStub where
  curveFit := fun _ _ _ p0 => p0
  brute := fun _ r _ _ => r.1
  minimizePowell := fun _ p _ => (p, [])

/-- Witness for C3 at a concrete optimizer bundle and concrete data. -/
theorem fitBarrierModel_stages_witness :
    fitBarrierModel idStub [1, 2, 3] [] [] none 0 true =
      (let pp := if true then idStub.curveFit barrierModel [] [] [1, 2, 3] else [1, 2, 3]
       let t1 := idStub.brute
         (fun x => barrierScore [] [] [pp.getD 0 0, pp.getD 1 0, x] none defaultThr)
         (0, 100) 20 false
       let x1 := idStub.brute
         (fun x => barrierScore [] [] [x, pp.getD 1 0, t1] none defaultThr)
         (pp.getD 0 0 - 2, pp.getD 0 0 + 2) 20 false
       let q1 := (idStub.minimizePowell
         (fun q => barrierScore [] [] q none defaultThr)
         [x1, pp.getD 1 0, t1] true).1
       (idStub.minimizePowell
         (fun q => barrierScore [] [] q none defaultThr) q1 true).1) :=
  fitBarrierModel_stages idStub [1, 2, 3] [] [] none 0 true (by simp)
    (fun f a b p => rfl)

/-- The driver with the stage-(c) brute search range replaced by
`[center - 2, center + 2]` for an arbitrary choice of center depending on the
caller's initial guess `pp0` and on the vector `pp` produced by stage (a);
everything else is exactly the computation of `fitBarrierModel`.
`fun pp0 _ => pp0.getD 0 0` gives the search range asserted by the spec,
`fun _ pp => pp.getD 0 0` gives the one in the source. -/
noncomputable def fitBarrierModelRangeSpec (center : List ℝ → List ℝ → ℝ)
    (S : ScipyStub) (pp0 xd yd : List ℝ) (weights : Option (List ℝ))
    (curvefit : Bool) : List ℝ :=
  let pp := if curvefit then S.curveFit barrierModel xd yd pp0 else pp0
  let ppx0 := pp
  let r1 := S.brute
    (fun x => barrierScore xd yd [pp.getD 0 0, pp.getD 1 0, x] weights defaultThr)
    (0, 100) 20 false
  let ppx1 := ppx0.set 2 r1
  let r2 := S.brute
    (fun x => barrierScore xd yd [x, pp.getD 1 0, ppx1.getD 2 0] weights defaultThr)
    (center pp0 pp - 2, center pp0 pp + 2) 20 false
  let ppx2 := ppx1.set 0 r2
  let ffp := fun q => barrierScore xd yd q weights defaultThr
  let P1 := S.minimizePowell ffp ppx2 true
  let P2 := S.minimizePowell ffp P1.1 true
  P2.1

/-- An optimizer bundle whose curve fit moves the first parameter: it returns
`[10, 0, 0]` regardless of the seed.  The grid search returns the lower end
of its range, which makes the searched range observable in the result. -/
noncomputable def shiftStub : ScipyStub where
  curveFit := fun _ _ _ _ => [10, 0, 0]
  brute := fun _ r _ _ => r.1
  minimizePowell := fun _ p _ => (p, [])

/-- Counterexample for C4: with the curve-fit stage enabled, the stage-(c)
grid search is centered at the first element of the curve-fit output, not of
the caller's initial guess `pp0`.  With `shiftStub` (curve fit produces
`[10, 0, 0]`, grid search returns the lower end of its range) and
`pp0 = [0, 0, 0]`, the driver returns `[8, 0, 0]` while the claimed range
`[pp0[0] - 2, pp0[0] + 2]` would give `[-2, 0, 0]`. -/
theorem fitBarrierModel_xoffset_range_counterexample :
    fitBarrierModel shiftStub [0, 0, 0] [] [] none 0 true ≠
      fitBarrierModelRangeSpec (fun pp0 _ => pp0.getD 0 0)
        shiftStub [0, 0, 0] [] [] none true := by
  have h1 : fitBarrierModel shiftStub [0, 0, 0] [] [] none 0 true = [8, 0, 0] := by
    unfold fitBarrierModel fitBarrierModelRun shiftStub
    norm_num
  have h2 : fitBarrierModelRangeSpec (fun pp0 _ => pp0.getD 0 0)
      shiftStub [0, 0, 0] [] [] none true = [-2, 0, 0] := by
    unfold fitBarrierModelRangeSpec shiftStub
    norm_num
  rw [h1, h2]
  intro h
  have := congrArg (fun l => l.getD 0 0) h
  norm_num at this

/-- Claim C4 (amended): for every call to `fitBarrierModel`, the coarse
grid-search stage over the offset searches the range
`[center - 2, center + 2]` with `Ns = 20` samples, where `center` is the
first element of the vector produced by stage (a): the caller's initial guess
`pp0` when the curve-fit stage is disabled, the curve-fit output when it is
enabled. -/
theorem fitBarrierModel_xoffset_range_amended (S : ScipyStub)
    (pp0 xd yd : List ℝ) (weights : Option (List ℝ)) (verbose : ℤ)
    (curvefit : Bool) :
    fitBarrierModel S pp0 xd yd weights verbose curvefit =
      fitBarrierModelRangeSpec (fun _ pp => pp.getD 0 0)
        S pp0 xd yd weights curvefit := rfl

/-- An optimizer bundle whose Powell minimizer behaves like scipy's: when
invoked with `disp=True` it prints a convergence report. -/
noncomputable def dispStub : ScipyStub where
  curveFit := fun _ _ _ p0 => p0
  brute := fun _ r _ _ => r.1
  minimizePowell := fun _ p disp =>
    (p, if disp then [LogLine.minimizerLine "Optimization terminated successfully."] else [])

/-- Counterexample for C7: with verbosity disabled (`verbose = 0`) the call
still produces output, because both Powell stages are invoked with
`options={'disp': True}` unconditionally.  With a minimizer that prints a
convergence report whenever display is requested (scipy's behaviour), the
output of a `verbose = 0` call is non-empty. -/
theorem fitBarrierModel_silent_counterexample :
    (fitBarrierModelRun dispStub [0, 0, 0] [] [] none 0 false).2 ≠ [] := by
  unfold fitBarrierModelRun dispStub
  simp

/-- Claim C7 (amended): with `verbose = 0` every print of the driver itself is
suppressed, but the two Powell minimizations are invoked with display enabled
(`disp=True`) unconditionally, so the diagnostic output of the call is
exactly whatever those two minimizer invocations print. -/
theorem fitBarrierModel_verbose_zero_output (S : ScipyStub)
    (pp0 xd yd : List ℝ) (weights : Option (List ℝ)) (curvefit : Bool) :
    (fitBarrierModelRun S pp0 xd yd weights 0 curvefit).2 =
      (let pp := if curvefit then S.curveFit barrierModel xd yd pp0 else pp0
       let r1 := S.brute
         (fun x => barrierScore xd yd [pp.getD 0 0, pp.getD 1 0, x] weights defaultThr)
         (0, 100) 20 false
       let ppx1 := pp.set 2 r1
       let r2 := S.brute
         (fun x => barrierScore xd yd [x, pp.getD 1 0, ppx1.getD 2 0] weights defaultThr)
         (pp.getD 0 0 - 2, pp.getD 0 0 + 2) 20 false
       let ppx2 := ppx1.set 0 r2
       let ffp := fun q => barrierScore xd yd q weights defaultThr
       let P1 := S.minimizePowell ffp ppx2 true
       P1.2 ++ (S.minimizePowell ffp P1.1 true).2) := by
  unfold fitBarrierModelRun
  simp

/-! ### Store-level embedding for the frame properties

Python numpy arrays are heap objects; to talk about mutation of
caller-supplied arguments, arrays are placed in a store indexed by
references.  `a.copy()` allocates a fresh cell, `a[i] = v` writes the cell in
place.  Python dicts are modelled by a second store of association lists; the
values stored in the `dd` dict by `fitBarrierModel` are an array reference
(`dd['pp'] = pp`) and either an array reference or Python `None`
(`dd['weights'] = weights`). -/

/-- Array store: cell `r` holds a numpy array. -/
abbrev AStore := List (List ℝ)

/-- Read the array in cell `r`. -/
def aread (a : AStore) (r : ℕ) : List ℝ := a.getD r []

/-- Write cell `r` in place. -/
def awrite (a : AStore) (r : ℕ) (v : List ℝ) : AStore := a.set r v

/-- A value stored in a Python dict by this pipeline. -/
inductive DVal where
  | arr (r : ℕ)
  | pyNone
deriving DecidableEq

/-- A Python dict with the keys used here. -/
abbrev Dict := List (String × DVal)

/-- Dict store: cell `r` holds a dict. -/
abbrev DStore := List Dict

/-- `d[k] = v`: overwrite the entry if the key is present, append otherwise. -/
def dictSet (d : Dict) (k : String) (v : DVal) : Dict :=
  if d.any (fun p => p.1 = k) then
    d.map (fun p => if p.1 = k then (k, v) else p)
  else d ++ [(k, v)]

/-- Write key `k` of the dict in cell `r` in place. -/
def dwrite (ds : DStore) (r : ℕ) (k : String) (v : DVal) : DStore :=
  ds.set r (dictSet (ds.getD r []) k v)

/-- Store-level `barrierScore`: `ppq = pp.copy()` allocates one fresh cell
(with the same contents as `pp`); every other intermediate is a fresh numpy
temporary that never escapes, so only the value is modelled.  No
caller-visible cell is written. -/
noncomputable def barrierScoreST (a : AStore) (xdRef ydRef ppRef : ℕ)
    (wRef : Option ℕ) (thr : ℝ) : ℝ × AStore :=
  (barrierScore (aread a xdRef) (aread a ydRef) (aread a ppRef)
      (wRef.map (aread a)) thr,
   a ++ [aread a ppRef])

/-- Store-level `fitBarrierModel` (tunnelbarrier.py, lines 200-257), keeping
track of which cells are allocated and which are written:
`pp` is a fresh cell (the `curve_fit` result or `pp0.copy()`), `ppx` is a
fresh copy of `pp`, `ppx[2] = r` and `ppx[0] = r` write the `ppx` cell in
place, each diagnostic `barrierScore` call copies its parameter vector, each
Powell stage rebinds `ppx` to the fresh solution array `r['x']`, and finally
`dd['pp'] = pp; dd['weights'] = weights` writes the caller's dict `dd` when
it is supplied.  Objectives passed to the optimizer build fresh Python lists
`[pp[0], pp[1], x]`, so they are modelled at value level.  Returns the
reference of the result array and the two stores. -/
noncomputable def fitBarrierModelST (S : ScipyStub) (a0 : AStore) (d0 : DStore)
    (pp0Ref xdRef ydRef : ℕ) (wRef : Option ℕ) (ddRef : Option ℕ)
    (curvefit : Bool) : ℕ × AStore × DStore :=
  let xdV := aread a0 xdRef
  let ydV := aread a0 ydRef
  let wV := wRef.map (aread a0)
  let ppV := if curvefit then S.curveFit barrierModel xdV ydV (aread a0 pp0Ref)
             else aread a0 pp0Ref
  let ppRef := a0.length
  let a1 := a0 ++ [ppV]
  let ppxRef := a1.length
  let a2 := a1 ++ [ppV]
  let r1 := S.brute
    (fun x => barrierScore xdV ydV [ppV.getD 0 0, ppV.getD 1 0, x] wV defaultThr)
    (0, 100) 20 false
  let a3 := awrite a2 ppxRef ((aread a2 ppxRef).set 2 r1)
  let a4 := (barrierScoreST a3 xdRef ydRef ppRef wRef defaultThr).2
  let a5 := (barrierScoreST a4 xdRef ydRef ppxRef wRef defaultThr).2
  let r2 := S.brute
    (fun x => barrierScore xdV ydV [x, ppV.getD 1 0, (aread a5 ppxRef).getD 2 0] wV defaultThr)
    (ppV.getD 0 0 - 2, ppV.getD 0 0 + 2) 20 false
  let a6 := awrite a5 ppxRef ((aread a5 ppxRef).set 0 r2)
  let a7 := (barrierScoreST a6 xdRef ydRef ppRef wRef defaultThr).2
  let a8 := (barrierScoreST a7 xdRef ydRef ppxRef wRef defaultThr).2
  let ffp := fun q => barrierScore xdV ydV q wV defaultThr
  let q1 := (S.minimizePowell ffp (aread a8 ppxRef) true).1
  let ppxRef2 := a8.length
  let a9 := a8 ++ [q1]
  let q2 := (S.minimizePowell ffp (aread a9 ppxRef2) true).1
  let ppxRef3 := a9.length
  let a10 := a9 ++ [q2]
  let a11 := (barrierScoreST a10 xdRef ydRef ppRef wRef defaultThr).2
  let a12 := (barrierScoreST a11 xdRef ydRef ppxRef3 wRef defaultThr).2
  let d1 := ddRef.elim d0 (fun dr =>
    dwrite (dwrite d0 dr "pp" (DVal.arr ppRef)) dr "weights"
      (wRef.elim DVal.pyNone DVal.arr))
  (ppxRef3, a12, d1)

/-- Store extension: `b` has at least the cells of `a` and agrees with `a` on
all of them. -/
def ExtStore (a b : AStore) : Prop :=
  a.length ≤ b.length ∧ ∀ r, r < a.length → aread b r = aread a r

lemma extStore_refl (a : AStore) : ExtStore a a := ⟨le_refl _, fun _ _ => rfl⟩

lemma extStore_trans {a b c : AStore} (h1 : ExtStore a b) (h2 : ExtStore b c) :
    ExtStore a c :=
  ⟨le_trans h1.1 h2.1, fun r hr => (h2.2 r (lt_of_lt_of_le hr h1.1)).trans (h1.2 r hr)⟩

lemma extStore_append {a b : AStore} (v : List ℝ) (h : ExtStore a b) :
    ExtStore a (b ++ [v]) := by
  refine ⟨le_trans h.1 (by simp), fun r hr => ?_⟩
  rw [← h.2 r hr]
  unfold aread
  rw [List.getD_append]
  exact lt_of_lt_of_le hr h.1

lemma extStore_scoreStep {a b : AStore} (x y p : ℕ) (w : Option ℕ) (t : ℝ)
    (h : ExtStore a b) : ExtStore a (barrierScoreST b x y p w t).2 :=
  extStore_append _ h

lemma extStore_write {a b : AStore} (r : ℕ) (v : List ℝ) (h : ExtStore a b)
    (hr : a.length ≤ r) : ExtStore a (awrite b r v) := by
  refine ⟨le_trans h.1 (by simp [awrite]), fun i hi => ?_⟩
  rw [← h.2 i hi]
  unfold aread awrite
  rw [List.getD_eq_getElem?_getD, List.getD_eq_getElem?_getD,
    List.getElem?_set_ne (by omega)]

/-- Counterexample for C8: the caller-supplied diagnostics dict `dd` does not
hold the same contents after the call.  With `pp0, xd, yd` in cells 0, 1, 2
and an empty dict supplied as `dd` in dict cell 0, the dict cell is mutated:
after the call it holds the entries `'pp'` and `'weights'`. -/
theorem fitBarrierModel_dd_mutation_counterexample :
    (fitBarrierModelST idStub [[0, 0, 0], [], []] [[]] 0 1 2 none (some 0)
        false).2.2 ≠ [[]] := by
  unfold fitBarrierModelST
  dsimp only
  decide

/-- Claim C8 (amended): every caller-supplied array (`xd`, `yd`, `weights`,
`pp0`) holds exactly the same contents after a `barrierScore` or
`fitBarrierModel` call as before it — internal refinement works only on
defensive copies, and the returned vector is a fresh cell (index
`a0.length + 7`) distinct from every caller cell — with one exception the
claim overlooks: the optional diagnostics dict `dd`, when supplied, is
mutated in place, receiving the entry `'pp'` (a reference to the internal
post-stage-(a) parameter copy) and the entry `'weights'` (the caller's
weights reference, or Python `None`). -/
theorem fitBarrierModel_frame_amended (S : ScipyStub) (a0 : AStore)
    (d0 : DStore) (pp0Ref xdRef ydRef : ℕ) (wRef : Option ℕ)
    (ddRef : Option ℕ) (cf : Bool) :
    (∀ r, r < a0.length →
      aread (fitBarrierModelST S a0 d0 pp0Ref xdRef ydRef wRef ddRef cf).2.1 r =
        aread a0 r) ∧
    (fitBarrierModelST S a0 d0 pp0Ref xdRef ydRef wRef ddRef cf).1 =
      a0.length + 7 ∧
    (ddRef = none →
      (fitBarrierModelST S a0 d0 pp0Ref xdRef ydRef wRef ddRef cf).2.2 = d0) ∧
    (∀ dr, ddRef = some dr →
      (fitBarrierModelST S a0 d0 pp0Ref xdRef ydRef wRef ddRef cf).2.2 =
        dwrite (dwrite d0 dr "pp" (DVal.arr a0.length)) dr "weights"
          (wRef.elim DVal.pyNone DVal.arr)) ∧
    (∀ (a : AStore) (x y p : ℕ) (w : Option ℕ) (t : ℝ) (r : ℕ), r < a.length →
      aread (barrierScoreST a x y p w t).2 r = aread a r) := by
  refine ⟨?_, ?_, ?_, ?_, ?_⟩
  · have hext : ExtStore a0
        (fitBarrierModelST S a0 d0 pp0Ref xdRef ydRef wRef ddRef cf).2.1 := by
      unfold fitBarrierModelST
      dsimp only
      apply extStore_scoreStep
      apply extStore_scoreStep
      apply extStore_append
      apply extStore_append
      apply extStore_scoreStep
      apply extStore_scoreStep
      apply extStore_write
      · apply extStore_scoreStep
        apply extStore_scoreStep
        apply extStore_write
        · apply extStore_append
          apply extStore_append
          exact extStore_refl a0
        · simp
      · simp
    exact fun r hr => hext.2 r hr
  · unfold fitBarrierModelST
    dsimp only
    simp [barrierScoreST, awrite]
  · intro h
    unfold fitBarrierModelST
    dsimp only
    rw [h]
    rfl
  · intro dr h
    unfold fitBarrierModelST
    dsimp only
    rw [h]
    rfl
  · intro a x y p w t r hr
    exact (extStore_append _ (extStore_refl a)).2 r hr

/-- Witness for C8 (amended) at concrete stores: `pp0, xd, yd` in cells
0, 1, 2, no weights, no `dd`. -/
theorem fitBarrierModel_frame_witness :
    aread (fitBarrierModelST idStub [[1, 2, 3], [], []] [] 0 1 2 none none
        false).2.1 0 = aread [[1, 2, 3], [], []] 0 ∧
    (fitBarrierModelST idStub [[1, 2, 3], [], []] [] 0 1 2 none none
        false).2.2 = [] ∧
    aread (barrierScoreST [[1, 2, 3]] 0 0 0 none 1).2 0 = aread [[1, 2, 3]] 0 :=
  ⟨(fitBarrierModel_frame_amended idStub [[1, 2, 3], [], []] [] 0 1 2 none none
      false).1 0 (by norm_num),
   (fitBarrierModel_frame_amended idStub [[1, 2, 3], [], []] [] 0 1 2 none none
      false).2.2.1 rfl,
   (fitBarrierModel_frame_amended idStub [[1, 2, 3], [], []] [] 0 1 2 none none
      false).2.2.2.2 [[1, 2, 3]] 0 0 0 none 1 0 (by norm_num)⟩

/-- Counterexample for C6: for the constant factor `c = -1` the score does
not scale by `c`.  At `xd = [0]`, `yd = [-1]`, parameters `(0, 0, 0)`,
`w = [1]`, `thr = 1` both the weighted scores are `1`, so scaling the
weights by `-1` leaves the score at `1 ≠ -1`. -/
theorem barrierScore_weight_scaling_counterexample :
    barrierScore [0] [-1] [(0 : ℝ), 0, 0]
        (some (([1] : List ℝ).map (fun v => (-1) * v))) 1 ≠
      (-1) * barrierScore [0] [-1] [(0 : ℝ), 0, 0] (some [1]) 1 := by
  have hm : barrierModel [0] [(0 : ℝ), 0, 0] = [0] := by
    norm_num [barrierModel, Real.sqrt_zero]
  have hval : ∀ w : ℝ, |w| = 1 →
      barrierScore [0] [-1] [(0 : ℝ), 0, 0] (some [w]) 1 = 1 := by
    intro w hw
    rw [barrierScore_some, hm]
    norm_num [robustCostBZ0, norm4, hw, Real.sqrt_one, Real.one_rpow]
  have h1 : (([1] : List ℝ).map (fun v => (-1) * v)) = [-1] := by norm_num
  rw [h1, hval (-1) (by norm_num), hval 1 (by norm_num)]
  norm_num

/-- Claim C6 (amended): for every non-negative constant factor `c`,
multiplying all weights by `c` scales the score by `c`:
`barrierScore(xd, yd, pp, c*w, thr) = c * barrierScore(xd, yd, pp, w, thr)`
(for a general real factor the score scales by `|c|`, since the L4 norm is
absolutely homogeneous). -/
theorem barrierScore_weight_scaling_amended (xd yd pp w : List ℝ)
    (thr c : ℝ) (hc : 0 ≤ c) :
    barrierScore xd yd pp (some (w.map (fun v => c * v))) thr =
      c * barrierScore xd yd pp (some w) thr := by
  rw [barrierScore_some, barrierScore_some, zipWith_map_mul_right,
    norm4_map_mul, List.length_map, abs_of_nonneg hc, mul_div_assoc]

/-- Witness for C6 (amended) at `c = 2`. -/
theorem barrierScore_weight_scaling_witness :
    barrierScore [0] [1] [(0 : ℝ), 0, 0]
        (some (([1] : List ℝ).map (fun v => 2 * v))) 1 =
      2 * barrierScore [0] [1] [(0 : ℝ), 0, 0] (some [1]) 1 :=
  barrierScore_weight_scaling_amended [0] [1] [0, 0, 0] [1] 1 2 (by norm_num)

/-! ### Numpy broadcasting of mismatched 1-D array lengths

`barrierScore` subtracts `yd` from the model output and multiplies by
`weights` with numpy elementwise operations.  For 1-D operands numpy
broadcasts lengths `n` and `m` when `n = m` or one of them is 1 (the length-1
operand is repeated); otherwise it raises
`ValueError: operands could not be broadcast together`.  The checked variant
below wraps `barrierScore` in this shape discipline; the unchecked `List ℝ`
functions above model the matched-length case. -/

/-- Discriminate `Except.ok` results. -/
def exceptIsOk {ε α : Type} : Except ε α → Bool
  | Except.ok _ => true
  | Except.error _ => false

/-- Numpy 1-D broadcast compatibility of lengths `n` and `m`. -/
def bcOk (n m : ℕ) : Bool := n == m || n == 1 || m == 1

/-- Length of the result of broadcasting compatible lengths `n` and `m`. -/
def bclen (n m : ℕ) : ℕ := if n = 1 then m else n

/-- Extend a list to the broadcast length by repeating its single element. -/
def bext (l : List ℝ) (n : ℕ) : List ℝ :=
  if l.length = n then l else List.replicate n (l.getD 0 0)

/-- `barrierScore` with numpy's shape semantics: a genuinely mismatched pair
of operand lengths (neither equal nor either of length 1) raises a broadcast
error; compatible lengths broadcast and the score is computed as in
`barrierScore`. -/
noncomputable def barrierScoreChecked (xd yd pp : List ℝ)
    (weights : Option (List ℝ)) (thr : ℝ) : Except String ℝ :=
  let ydatax := barrierModel xd pp
  if bcOk ydatax.length yd.length then
    let n := bclen ydatax.length yd.length
    let sc0 := List.zipWith (fun a b => |a - b|) (bext ydatax n) (bext yd n)
    let sc1 := sc0.map (fun v =>
      Real.sqrt (robustCostBZ0 (v / thr) (thr / thr)) * thr)
    match weights with
    | none => Except.ok (norm4 sc1 / (sc1.length : ℝ))
    | some w =>
      if bcOk sc1.length w.length then
        let m := bclen sc1.length w.length
        let sc2 := List.zipWith (· * ·) (bext sc1 m) (bext w m)
        Except.ok (norm4 sc2 / (sc2.length : ℝ))
      else Except.error "operands could not be broadcast together"
  else Except.error "operands could not be broadcast together"

lemma bext_length (l : List ℝ) (n : ℕ) : (bext l n).length = n := by
  unfold bext
  split <;> simp [*]

lemma bext_eq (l : List ℝ) (n : ℕ) (h : l.length = n) : bext l n = l := by
  unfold bext
  rw [if_pos h]

lemma bclen_self (n : ℕ) : bclen n n = n := by
  unfold bclen
  split <;> simp [*]

lemma bcOk_self (n : ℕ) : bcOk n n = true := by simp [bcOk]

/-- Counterexample for C9: `barrierScore` on genuinely mismatched coordinate
and response lengths (here 2 and 3) does not return a value — numpy raises a
broadcast error. -/
theorem barrierScore_mismatch_counterexample :
    exceptIsOk (barrierScoreChecked [1, 2] [1, 2, 3] [(0 : ℝ), 0, 0] none 1) =
      false := by
  unfold barrierScoreChecked
  norm_num [bcOk, barrierModel_length, exceptIsOk]

/-- Claim C9 (amended): `barrierScore` (and hence the driver built on it)
succeeds exactly when the operand lengths are broadcast-compatible: equal
lengths, or a length-1 operand that is silently repeated.  A genuinely
mismatched pair of lengths raises the numeric library's broadcast error —
the pipeline itself performs no validation — and on equal lengths the call
returns the unchecked score. -/
theorem barrierScoreChecked_spec (xd yd pp : List ℝ) (w : Option (List ℝ))
    (thr : ℝ) :
    (exceptIsOk (barrierScoreChecked xd yd pp w thr) = true ↔
      (bcOk xd.length yd.length = true ∧
        ∀ ws, w = some ws → bcOk (bclen xd.length yd.length) ws.length = true)) ∧
    (yd.length = xd.length → (∀ ws, w = some ws → ws.length = xd.length) →
      barrierScoreChecked xd yd pp w thr =
        Except.ok (barrierScore xd yd pp w thr)) := by
  constructor
  · unfold barrierScoreChecked
    cases w with
    | none =>
      simp only [barrierModel_length]
      split
      · simp_all [exceptIsOk]
      · simp_all [exceptIsOk]
    | some ws =>
      simp only [barrierModel_length, List.length_map, List.length_zipWith,
        bext_length, min_self]
      split
      · split
        · simp_all [exceptIsOk]
        · simp_all [exceptIsOk]
      · simp_all [exceptIsOk]
  · intro hy hw
    unfold barrierScoreChecked
    dsimp only
    have h1 : bcOk (barrierModel xd pp).length yd.length = true := by
      simp [barrierModel_length, hy, bcOk_self]
    rw [if_pos h1]
    have hn : bclen (barrierModel xd pp).length yd.length = xd.length := by
      rw [barrierModel_length, hy, bclen_self]
    rw [hn, bext_eq _ _ (barrierModel_length xd pp), bext_eq _ _ hy]
    cases w with
    | none =>
      dsimp only
      rw [barrierScore_none]
    | some ws =>
      dsimp only
      have hws := hw ws rfl
      have h3 : ((List.zipWith (fun a b => |a - b|) (barrierModel xd pp) yd).map
          (fun v => Real.sqrt (robustCostBZ0 (v / thr) (thr / thr)) * thr)).length =
          xd.length := by
        simp [List.length_map, List.length_zipWith, barrierModel_length, hy]
      have h2 : bcOk
          ((List.zipWith (fun a b => |a - b|) (barrierModel xd pp) yd).map
            (fun v => Real.sqrt (robustCostBZ0 (v / thr) (thr / thr)) * thr)).length
          ws.length = true := by
        rw [h3, hws]
        exact bcOk_self _
      rw [if_pos h2]
      have hm : bclen
          ((List.zipWith (fun a b => |a - b|) (barrierModel xd pp) yd).map
            (fun v => Real.sqrt (robustCostBZ0 (v / thr) (thr / thr)) * thr)).length
          ws.length = xd.length := by
        rw [h3, hws, bclen_self]
      rw [hm, bext_eq _ _ h3, bext_eq _ _ hws]
      rw [barrierScore_some]

/-- Witness for C9 (amended) at matched lengths 1, 1. -/
theorem barrierScore_broadcast_witness :
    barrierScoreChecked [0] [0] [(0 : ℝ), 0, 0] none 1 =
      Except.ok (barrierScore [0] [0] [(0 : ℝ), 0, 0] none 1) :=
  (barrierScoreChecked_spec [0] [0] [0, 0, 0] none 1).2 (by simp)
    (fun ws h => Option.noConfusion h)

/-! ### The Keysight M3202A AWG driver stub -/

/-- The argument of the `KeysightM3202A_AWG` constructor, reduced to what the
constructor would inspect: the name of its Python type
(`type(awg).__name__`). -/
structure AwgDevice where
  typeName : String

/-- Modelled from the spec: `Setting` is imported from
`qtt.instrument_drivers.virtual_awg.setting`, which is not among the supplied
sources.  The spec describes it as "the 'setting with bounds' pattern ...
(value plus min/max plus unit)"; the field order follows the constructor
calls `Setting('GS/s', 1.0e9, 1.0e7, 1.2e9)` etc. in the source. -/
structure Setting where
  unit : String
  value : ℝ
  minimumValue : ℝ
  maximumValue : ℝ

/-- The exceptions this constructor can raise. -/
inductive PyError where
  | typeError (msg : String)
  | awgCommonError (msg : String)
  | notImplementedError

/-- A constructed driver instance (never actually produced). -/
structure KeysightM3202A_AWG where
  settings : List (String × Setting)
  device : AwgDevice

/-- `KeysightM3202A_AWG.update_settings` (KeysightM3202A.py, lines 44-45):
unconditionally `raise NotImplementedError`. -/
def keysightUpdateSettings : Except PyError Unit :=
  Except.error PyError.notImplementedError

/-- The settings dict built in the constructor (KeysightM3202A.py,
lines 13-18). -/
noncomputable def keysightSettings : List (String × Setting) :=
  [("sampling_rate", ⟨"GS/s", 1.0e9, 1.0e7, 1.2e9⟩),
   ("marker_delay", ⟨"ns", 0.0, 0.0, 1.0⟩),
   ("marker_low", ⟨"V", 0.0, -1.0, 2.6⟩),
   ("marker_high", ⟨"V", 1.0, -0.9, 2.7⟩),
   ("amplitudes", ⟨"V", 1.0, 0.02, 4.5⟩),
   ("offset", ⟨"V", 0, -2.25, 2.25⟩)]

/-- `KeysightM3202A_AWG.__init__(self, awg)` (KeysightM3202A.py, lines 9-20).
Its first statement is `super('M3202A', channels=[1, 2, 3, 4], markers=[1])`:
the builtin `super` is called with a `str` where a type is required, which
raises `TypeError` before anything else runs, for every argument `awg`. -/
noncomputable def keysightInit (awg : AwgDevice) :
    Except PyError KeysightM3202A_AWG :=
  Except.error (PyError.typeError "super() argument 1 must be a type")

/-- The hypothetical continuation of the constructor past the malformed
`super` call, assuming `AwgCommon.__init__('M3202A', ...)` had run and set
`self._awg_name = 'M3202A'` (AwgCommon is not among the supplied sources;
this follows the intent of the `super` call's arguments).  The name check
`if type(awg).__name__ is not self._awg_name: raise AwgCommonError(...)` is
modelled with string inequality; past it, the constructor builds the settings
dict, stores the device and unconditionally ends with
`self.update_settings()`, which always raises `NotImplementedError`. -/
noncomputable def keysightInitPastSuper (awg : AwgDevice) :
    Except PyError KeysightM3202A_AWG :=
  if awg.typeName = "M3202A" then
    match keysightUpdateSettings with
    | Except.error e => Except.error e
    | Except.ok _ => Except.ok ⟨keysightSettings, awg⟩
  else
    Except.error (PyError.awgCommonError
      "The AWG does not correspond with M3202A")

/-- Claim C10: for every argument `awg`, constructing `KeysightM3202A_AWG`
raises before an instance is returned: the constructor's `super` call is
malformed, and even past the name check the constructor unconditionally ends
by calling `self.update_settings()`, which always raises
`NotImplementedError` — so no usable instance is ever created and the
settings dict is never observable. -/
theorem keysight_init_always_raises :
    (∀ awg : AwgDevice, exceptIsOk (keysightInit awg) = false) ∧
    (∀ awg : AwgDevice, exceptIsOk (keysightInitPastSuper awg) = false) := by
  constructor
  · intro awg
    rfl
  · intro awg
    unfold keysightInitPastSuper
    split
    · rfl
    · rfl
